import Mathlib

set_option maxHeartbeats 1000000

/-!
Verification of the parfait pipeline core (tts.go, video.go, config.go):
markdown note extraction, API-key rotation and retry for the remote TTS
backend, WAV container writing, slide sorting and video concatenation.

The Go source is shallowly embedded: goldmark AST nodes become the
`MDNode` inductive, byte strings become `String` (character-level,
faithful for the ASCII patterns involved), Go's `error` returns become
`Except String`, and Go's runtime panic on integer division by zero is
modelled by `Option` via `goDiv`.
-/

/- ===== String helpers mirroring Go's strings package ===== -/

/-- First index at which `pat` occurs in the list, mirroring Go
`strings.Index` (character positions instead of byte positions). -/
def listIndexOf (pat : List Char) : List Char → Option Nat
  | [] => if pat.isEmpty then some 0 else none
  | c :: rest =>
    if pat.isPrefixOf (c :: rest) then some 0
    else (listIndexOf pat rest).map (· + 1)

/-- Go `strings.Contains`. -/
def strContains (s pat : String) : Bool :=
  (listIndexOf pat.data s.data).isSome

/-- Go `strings.TrimSpace` on a character list: drop whitespace from
both ends. -/
def trimChars (cs : List Char) : List Char :=
  ((cs.dropWhile Char.isWhitespace).reverse.dropWhile Char.isWhitespace).reverse

/- ===== Markdown slide parsing (tts.go) ===== -/

/-- A top-level goldmark AST node as consumed by
`splitNodesByThematicBreak`: a thematic break (`---`), a heading with
its level and text, an HTML block carrying whether goldmark classified
it as a comment block (HTMLBlockType2) and its raw text, or any other
node kind (paragraph, list, code fence, ...). -/
inductive MDNode where
  | thematicBreak : MDNode
  | heading (level : Nat) (titleText : String) : MDNode
  | htmlBlock (blockType2 : Bool) (raw : String) : MDNode
  | other : MDNode
deriving Repr, DecidableEq

/-- tts.go `extractHTMLComment`: returns the trimmed body between
`<!--` and `-->` of a comment HTML block, or the empty string when the
block is not a comment / carries no body. -/
def extractHTMLComment (blockType2 : Bool) (raw : String) : String :=
  if !blockType2 then ("")
  else
    let html := trimChars raw.data
    if !(("<!--").data.isPrefixOf html) then ("")
    else
      let content := html.drop 4
      let content :=
        match listIndexOf ("-->").data content with
        | some idx => content.take idx
        | none => content
      String.mk (trimChars content)

/-- tts.go `slideInfo`: title and collected comment bodies of one slide. -/
structure slideInfo where
  title : String
  comments : List String
deriving Repr, DecidableEq

/-- The loop body of tts.go `splitNodesByThematicBreak`: walks the
document's top-level children carrying the current slide and the
`hasContent` flag, closing a slide at each thematic break and keeping
only slides that have content, a title or comments. -/
def splitNodesLoop : List MDNode → slideInfo → Bool → List slideInfo
  | [], current, hasContent =>
    if hasContent || current.title != ("") || !current.comments.isEmpty then [current] else []
  | MDNode.thematicBreak :: rest, current, hasContent =>
    if hasContent || current.title != ("") || !current.comments.isEmpty then
      current :: splitNodesLoop rest { title := "", comments := [] } false
    else
      splitNodesLoop rest { title := "", comments := [] } false
  | MDNode.heading level titleText :: rest, current, _ =>
    let next :=
      if level ≤ 2 ∧ current.title = ("") then { current with title := titleText } else current
    splitNodesLoop rest next true
  | MDNode.htmlBlock bt raw :: rest, current, _ =>
    let comment := extractHTMLComment bt raw
    let next :=
      if comment != ("") then { current with comments := current.comments ++ [comment] } else current
    splitNodesLoop rest next true
  | MDNode.other :: rest, current, _ =>
    splitNodesLoop rest current true

/-- tts.go `splitNodesByThematicBreak`. -/
def splitNodesByThematicBreak (nodes : List MDNode) : List slideInfo :=
  splitNodesLoop nodes { title := "", comments := [] } false

/-- tts.go `SlideNote`. -/
structure SlideNote where
  slideNumber : Nat
  note : String
deriving Repr, DecidableEq

/-- The error message produced by tts.go `extractNotesFromMarkdown` for
slide number `n` (1-based) with the given title, substituting the
placeholder for an untitled slide. -/
def noCommentMsg (n : Nat) (title : String) : String :=
  let t := if title = ("") then ("(no title)") else title
  ("slide ") ++ toString n ++ (" (") ++ t ++ (") has no comment. All slides must have a <!-- --> comment")

/-- The loop of tts.go `extractNotesFromMarkdown`: `i` counts slides
already processed; errors out at the first slide without comments. -/
def notesLoop : List slideInfo → Nat → Except String (List SlideNote)
  | [], _ => Except.ok []
  | s :: rest, i =>
    if s.comments.isEmpty then
      Except.error (noCommentMsg (i + 1) s.title)
    else
      match notesLoop rest (i + 1) with
      | Except.error e => Except.error e
      | Except.ok ns =>
        Except.ok ({ slideNumber := i + 1, note := String.intercalate "\n" s.comments } :: ns)

/-- tts.go `extractNotesFromMarkdown`, after goldmark parsing produced
the top-level node list. -/
def extractNotesFromMarkdown (nodes : List MDNode) : Except String (List SlideNote) :=
  notesLoop (splitNodesByThematicBreak nodes) 0

/- ===== Lemmas about the notes loop ===== -/

theorem notesLoop_ok (slides : List slideInfo) :
    ∀ i : Nat, (∀ s ∈ slides, s.comments ≠ []) →
      notesLoop slides i =
        Except.ok ((List.enumFrom i slides).map
          (fun p => { slideNumber := p.1 + 1, note := String.intercalate "\n" p.2.comments })) := by
  induction slides with
  | nil => intro i _; rfl
  | cons s rest ih =>
    intro i h
    have hs : s.comments ≠ [] := h s (List.mem_cons_self s rest)
    have hrest := ih (i + 1) (fun t ht => h t (List.mem_cons_of_mem s ht))
    have hne : s.comments.isEmpty = false := by
      cases hcs : s.comments with
      | nil => exact absurd hcs hs
      | cons a as => rfl
    simp [notesLoop, hne, hrest, List.enumFrom]

theorem notesLoop_error (pre : List slideInfo) (s : slideInfo) (post : List slideInfo) :
    ∀ i : Nat, (∀ t ∈ pre, t.comments ≠ []) → s.comments = [] →
      notesLoop (pre ++ s :: post) i = Except.error (noCommentMsg (i + pre.length + 1) s.title) := by
  induction pre with
  | nil =>
    intro i _ hs
    simp [notesLoop, hs]
  | cons t rest ih =>
    intro i h hs
    have ht : t.comments ≠ [] := h t (List.mem_cons_self t rest)
    have hne : t.comments.isEmpty = false := by
      cases hct : t.comments with
      | nil => exact absurd hct ht
      | cons a as => rfl
    have hrest := ih (i + 1) (fun u hu => h u (List.mem_cons_of_mem t hu)) hs
    have harith : i + 1 + rest.length + 1 = i + (rest.length + 1) + 1 := by omega
    simp [notesLoop, hne, hrest, harith]

/-- C1: for a document whose slide segmentation yields only slides with
at least one non-empty comment body, `extractNotesFromMarkdown` returns
exactly one `SlideNote` per slide, numbered 1..N in document order, with
`note` the newline-join of that slide's collected comment bodies. -/
theorem extractNotes_complete (nodes : List MDNode)
    (h : ∀ s ∈ splitNodesByThematicBreak nodes, s.comments ≠ []) :
    extractNotesFromMarkdown nodes =
      Except.ok ((List.enumFrom 0 (splitNodesByThematicBreak nodes)).map
        (fun p => { slideNumber := p.1 + 1, note := String.intercalate "\n" p.2.comments })) :=
  notesLoop_ok (splitNodesByThematicBreak nodes) 0 h

/-- Concrete document used to witness C1: two slides, each with one
non-empty HTML comment. -/
def c1Doc : List MDNode :=
  [MDNode.heading 1 "Intro", MDNode.htmlBlock true "<!-- Hello -->",
   MDNode.thematicBreak, MDNode.htmlBlock true "<!-- World -->"]

/-- Witness for C1 at a concrete two-slide document. -/
theorem extractNotes_complete_witness :
    (∀ s ∈ splitNodesByThematicBreak c1Doc, s.comments ≠ []) ∧
    extractNotesFromMarkdown c1Doc =
      Except.ok [{ slideNumber := 1, note := "Hello" }, { slideNumber := 2, note := "World" }] := by
  refine ⟨by decide, ?_⟩
  have h := extractNotes_complete c1Doc (by decide)
  rw [h]
  rfl

/-- C2: if slide segmentation contains a slide with no collected
comments (zero comments, or only comments whose bodies trim to empty),
preceded only by slides that do have comments, then
`extractNotesFromMarkdown` fails for the whole document with an error
naming that slide's 1-based index and its title (or the placeholder
when untitled); no partial note sequence is returned. -/
theorem extractNotes_empty_slide_error (nodes : List MDNode)
    (pre : List slideInfo) (s : slideInfo) (post : List slideInfo)
    (hsplit : splitNodesByThematicBreak nodes = pre ++ s :: post)
    (hpre : ∀ t ∈ pre, t.comments ≠ [])
    (hs : s.comments = []) :
    extractNotesFromMarkdown nodes = Except.error (noCommentMsg (pre.length + 1) s.title) := by
  unfold extractNotesFromMarkdown
  rw [hsplit]
  have h := notesLoop_error pre s post 0 hpre hs
  simpa using h

/-- Concrete document used to witness C2: slide 2 contains only a
whitespace-only comment, so its collected comment list is empty. -/
def c2Doc : List MDNode :=
  [MDNode.htmlBlock true "<!-- ok -->", MDNode.thematicBreak,
   MDNode.heading 2 "Broken", MDNode.htmlBlock true "<!--   -->"]

/-- Witness for C2: the whole extraction fails naming slide 2 and its
title, even though slide 1 had a valid comment. -/
theorem extractNotes_empty_slide_error_witness :
    extractNotesFromMarkdown c2Doc =
      Except.error "slide 2 (Broken) has no comment. All slides must have a <!-- --> comment" := by
  have h := extractNotes_empty_slide_error c2Doc
    [{ title := "", comments := ["ok"] }] { title := "Broken", comments := [] } []
    (by decide) (by decide) rfl
  rw [h]
  rfl

/- ===== API key pool loading (config.go, tts.go) ===== -/

/-- Go `strings.TrimSpace`. -/
def strTrim (s : String) : String := String.mk (trimChars s.data)

/-- tts.go `APIKeyManager`: ordered key pool plus rotation cursor. -/
structure APIKeyManager where
  keys : List String
  index : Nat
deriving Repr, DecidableEq

/-- config.go `normalizeKeys` loop: trims each key, drops blanks, and
drops keys already seen (the Go `seen` map is modelled as a list). -/
def normalizeKeysLoop : List String → List String → List String
  | _, [] => []
  | seen, k :: rest =>
    if strTrim k = ("") then normalizeKeysLoop seen rest
    else if strTrim k ∈ seen then normalizeKeysLoop seen rest
    else strTrim k :: normalizeKeysLoop (strTrim k :: seen) rest

/-- config.go `normalizeKeys`. -/
def normalizeKeys (keys : List String) : List String := normalizeKeysLoop [] keys

/-- One iteration of the env-var scan in tts.go `NewAPIKeyManager`:
append the value of GOOGLE_API_KEY_(i+1) when non-empty (no trimming,
no deduplication in the Go source). -/
def envKeyStep (env : String → String) (ks : List String) (i : Nat) : List String :=
  if env (("GOOGLE_API_KEY_") ++ toString (i + 1)) != ("") then
    ks ++ [env (("GOOGLE_API_KEY_") ++ toString (i + 1))]
  else ks

/-- The numbered-env-var scan of tts.go `NewAPIKeyManager` (i = 1..10). -/
def collectNumberedKeys (env : String → String) : List String :=
  (List.range 10).foldl (envKeyStep env) []

/-- Key-list computation of tts.go `NewAPIKeyManager`: numbered keys,
falling back to the singular GOOGLE_API_KEY when none were found. -/
def loadKeys (env : String → String) : List String :=
  let keys := collectNumberedKeys env
  if keys.isEmpty then
    if env ("GOOGLE_API_KEY") != ("") then [env ("GOOGLE_API_KEY")] else []
  else keys

/-- tts.go `NewAPIKeyManager`, with the process environment passed as a
function. -/
def NewAPIKeyManager (env : String → String) : Except String APIKeyManager :=
  let keys := loadKeys env
  if keys.isEmpty then
    Except.error ("no API keys found. Set GOOGLE_API_KEY or GOOGLE_API_KEY_1, GOOGLE_API_KEY_2, etc")
  else Except.ok { keys := keys, index := 0 }

/- ===== Lemmas about key loading ===== -/

theorem normalizeKeysLoop_not_mem_seen (keys : List String) :
    ∀ seen x, x ∈ normalizeKeysLoop seen keys → x ∉ seen := by
  induction keys with
  | nil => intro seen x hx; simp [normalizeKeysLoop] at hx
  | cons k rest ih =>
    intro seen x hx
    rw [normalizeKeysLoop] at hx
    by_cases h1 : strTrim k = ("")
    · rw [if_pos h1] at hx; exact ih seen x hx
    · rw [if_neg h1] at hx
      by_cases h2 : strTrim k ∈ seen
      · rw [if_pos h2] at hx; exact ih seen x hx
      · rw [if_neg h2] at hx
        rcases List.mem_cons.mp hx with h | h
        · subst h; exact h2
        · intro hmem
          exact (ih (strTrim k :: seen) x h) (List.mem_cons_of_mem _ hmem)

theorem normalizeKeysLoop_nodup (keys : List String) :
    ∀ seen, (normalizeKeysLoop seen keys).Nodup := by
  induction keys with
  | nil => intro seen; simp [normalizeKeysLoop]
  | cons k rest ih =>
    intro seen
    rw [normalizeKeysLoop]
    by_cases h1 : strTrim k = ("")
    · rw [if_pos h1]; exact ih seen
    · rw [if_neg h1]
      by_cases h2 : strTrim k ∈ seen
      · rw [if_pos h2]; exact ih seen
      · rw [if_neg h2]
        refine List.nodup_cons.mpr ⟨?_, ih _⟩
        intro hmem
        exact (normalizeKeysLoop_not_mem_seen rest _ _ hmem) (List.mem_cons_self _ _)

theorem normalizeKeysLoop_ne_blank (keys : List String) :
    ∀ seen x, x ∈ normalizeKeysLoop seen keys → x ≠ ("") := by
  induction keys with
  | nil => intro seen x hx; simp [normalizeKeysLoop] at hx
  | cons k rest ih =>
    intro seen x hx
    rw [normalizeKeysLoop] at hx
    by_cases h1 : strTrim k = ("")
    · rw [if_pos h1] at hx; exact ih seen x hx
    · rw [if_neg h1] at hx
      by_cases h2 : strTrim k ∈ seen
      · rw [if_pos h2] at hx; exact ih seen x hx
      · rw [if_neg h2] at hx
        rcases List.mem_cons.mp hx with h | h
        · subst h; exact h1
        · exact ih _ x h

theorem normalizeKeysLoop_sublist (keys : List String) :
    ∀ seen, (normalizeKeysLoop seen keys).Sublist (keys.map strTrim) := by
  induction keys with
  | nil => intro seen; simp [normalizeKeysLoop]
  | cons k rest ih =>
    intro seen
    rw [normalizeKeysLoop, List.map_cons]
    by_cases h1 : strTrim k = ("")
    · rw [if_pos h1]; exact (ih seen).cons _
    · rw [if_neg h1]
      by_cases h2 : strTrim k ∈ seen
      · rw [if_pos h2]; exact (ih seen).cons _
      · rw [if_neg h2]; exact (ih _).cons₂ _

theorem envKeyStep_length_le (env : String → String) (ks : List String) (i : Nat) :
    (envKeyStep env ks i).length ≤ ks.length + 1 := by
  rw [envKeyStep]
  by_cases h : env (("GOOGLE_API_KEY_") ++ toString (i + 1)) != ("")
  · rw [if_pos h]; simp
  · rw [if_neg h]; omega

theorem foldl_envKeyStep_length_le (env : String → String) (l : List Nat) :
    ∀ acc : List String, ((l.foldl (envKeyStep env) acc)).length ≤ acc.length + l.length := by
  induction l with
  | nil => intro acc; simp
  | cons x xs ih =>
    intro acc
    rw [List.foldl_cons]
    calc ((xs.foldl (envKeyStep env) (envKeyStep env acc x))).length
        ≤ (envKeyStep env acc x).length + xs.length := ih _
      _ ≤ acc.length + 1 + xs.length := by
          have := envKeyStep_length_le env acc x; omega
      _ = acc.length + (xs.length + 1) := by omega

theorem foldl_envKeyStep_eq_filter (env : String → String) (l : List Nat) :
    ∀ acc : List String,
      l.foldl (envKeyStep env) acc =
        acc ++ ((l.map (fun i => env (("GOOGLE_API_KEY_") ++ toString (i + 1)))).filter
          (fun k => k != (""))) := by
  induction l with
  | nil => intro acc; simp
  | cons x xs ih =>
    intro acc
    rw [List.foldl_cons, ih (envKeyStep env acc x), List.map_cons, List.filter_cons]
    rw [envKeyStep]
    by_cases h : env (("GOOGLE_API_KEY_") ++ toString (x + 1)) != ("")
    · rw [if_pos h, if_pos h, List.append_assoc]; rfl
    · rw [if_neg h, if_neg h]

theorem loadKeys_length_le (env : String → String) : (loadKeys env).length ≤ 10 := by
  rw [loadKeys]
  by_cases h : (collectNumberedKeys env).isEmpty
  · rw [if_pos h]
    by_cases h2 : env ("GOOGLE_API_KEY") != ("")
    · rw [if_pos h2]; simp
    · rw [if_neg h2]; simp
  · rw [if_neg h]
    have := foldl_envKeyStep_length_le env (List.range 10) []
    simpa [collectNumberedKeys] using this

theorem loadKeys_ne_blank (env : String → String) :
    ∀ k ∈ loadKeys env, k ≠ ("") := by
  intro k hk
  rw [loadKeys] at hk
  by_cases h : (collectNumberedKeys env).isEmpty
  · rw [if_pos h] at hk
    by_cases h2 : env ("GOOGLE_API_KEY") != ("")
    · rw [if_pos h2] at hk
      rcases List.mem_singleton.mp hk with h3
      subst h3
      exact bne_iff_ne.mp h2
    · rw [if_neg h2] at hk
      simp at hk
  · rw [if_neg h] at hk
    have heq := foldl_envKeyStep_eq_filter env (List.range 10) []
    rw [collectNumberedKeys, heq, List.nil_append] at hk
    have := List.of_mem_filter hk
    exact bne_iff_ne.mp this

/-- C3 counterexample environment: two numbered variables carrying the
same key. -/
def dupKeyEnv : String → String := fun name =>
  if name = ("GOOGLE_API_KEY_1") then ("k")
  else if name = ("GOOGLE_API_KEY_2") then ("k")
  else ("")

/-- C3 counterexample: tts.go `NewAPIKeyManager` performs no
deduplication on environment-sourced keys, so a pool loaded from an
environment with GOOGLE_API_KEY_1 = GOOGLE_API_KEY_2 = "k" contains the
duplicate entry twice, contradicting the claim that every loaded pool is
duplicate-free. -/
theorem newAPIKeyManager_dup_counterexample :
    NewAPIKeyManager dupKeyEnv = Except.ok { keys := [("k"), ("k")], index := 0 } ∧
    ¬ ([("k"), ("k")] : List String).Nodup := by
  constructor
  · rfl
  · decide

/-- C3 amended: pools loaded from the persisted config file pass through
config.go `normalizeKeys`, whose output is duplicate-free, blank-free and
an order-preserving subsequence of the trimmed sources; the env-var load
path of tts.go `NewAPIKeyManager` is order-preserving with respect to the
numbered variables, keeps no empty entries, and holds at most 10 keys,
but performs no deduplication. -/
theorem keyPool_load_properties (keys : List String) (env : String → String) :
    (normalizeKeys keys).Nodup ∧
    (∀ k ∈ normalizeKeys keys, k ≠ ("")) ∧
    (normalizeKeys keys).Sublist (keys.map strTrim) ∧
    (loadKeys env).length ≤ 10 ∧
    (∀ k ∈ loadKeys env, k ≠ ("")) ∧
    collectNumberedKeys env =
      ((List.range 10).map (fun i => env (("GOOGLE_API_KEY_") ++ toString (i + 1)))).filter
        (fun k => k != ("")) := by
  refine ⟨normalizeKeysLoop_nodup keys [], ?_, normalizeKeysLoop_sublist keys [],
    loadKeys_length_le env, loadKeys_ne_blank env, ?_⟩
  · intro k hk; exact normalizeKeysLoop_ne_blank keys [] k hk
  · rw [collectNumberedKeys, foldl_envKeyStep_eq_filter env (List.range 10) [], List.nil_append]

/-- Witness for the amended C3 at a concrete key list and environment. -/
theorem keyPool_load_properties_witness :
    (normalizeKeys [(" a "), ("a"), (""), ("b")]).Nodup ∧ ("a" : String) ≠ ("") ∧
    (loadKeys dupKeyEnv).length ≤ 10 :=
  ⟨(keyPool_load_properties [(" a "), ("a"), (""), ("b")] dupKeyEnv).1,
   (keyPool_load_properties [(" a "), ("a"), (""), ("b")] dupKeyEnv).2.1 ("a") (by decide),
   (keyPool_load_properties [(" a "), ("a"), (""), ("b")] dupKeyEnv).2.2.2.1⟩

/- ===== Key rotation and the Gemini retry loop (tts.go) ===== -/

/-- tts.go `GetNextKey`: returns the key at the cursor and advances the
cursor modulo the pool size. -/
def GetNextKey (m : APIKeyManager) : String × APIKeyManager :=
  (m.keys.getD m.index (""), { keys := m.keys, index := (m.index + 1) % m.keys.length })

/-- The sequence of keys produced by `n` consecutive `GetNextKey` calls. -/
def rotationKeys : APIKeyManager → Nat → List String
  | _, 0 => []
  | m, n + 1 => (GetNextKey m).1 :: rotationKeys (GetNextKey m).2 n

/-- Observable outcome of one Gemini attempt (one loop iteration of
tts.go `generateGeminiTTS`): whether client creation failed, whether
`GenerateContent` returned an error (and its text), whether the response
had candidates/parts, whether it had inline data, and whether the WAV
write failed. -/
structure AttemptSpec where
  clientErr : Option String
  genErr : Option String
  hasAudioData : Bool
  hasInlineData : Bool
  writeErr : Option String
deriving Repr, DecidableEq

/-- Control-flow outcome of one loop iteration. -/
inductive StepResult where
  | success : StepResult
  | fatal (msg : String) : StepResult
  | retry (msg : String) : StepResult
deriving Repr, DecidableEq

/-- The retryable-error classification of tts.go `generateGeminiTTS`. -/
def isRetryableErr (e : String) : Bool :=
  strContains e ("429") || strContains e ("500") || strContains e ("503") ||
    strContains e ("quota") || strContains e ("rate")

/-- One iteration body of the tts.go `generateGeminiTTS` key loop:
client-creation errors, retryable generation errors, missing audio and
failed writes continue with the next key; a non-retryable generation
error aborts the loop. -/
def processAttempt (a : AttemptSpec) : StepResult :=
  match a.clientErr with
  | some e => StepResult.retry e
  | none =>
    match a.genErr with
    | some e =>
      if isRetryableErr e then StepResult.retry e
      else StepResult.fatal (("error generating TTS: ") ++ e)
    | none =>
      if !a.hasAudioData then StepResult.retry ("no audio data found")
      else if !a.hasInlineData then StepResult.retry ("no inline data found")
      else
        match a.writeErr with
        | some e => StepResult.retry e
        | none => StepResult.success

/-- The `lastErr` value an iteration leaves behind when it continues. -/
def retryMsgOf (a : AttemptSpec) : String :=
  match a.clientErr with
  | some e => e
  | none =>
    match a.genErr with
    | some e => e
    | none =>
      if !a.hasAudioData then ("no audio data found")
      else if !a.hasInlineData then ("no inline data found")
      else
        match a.writeErr with
        | some e => e
        | none => ("")

/-- Rendering of the final `lastErr` (Go fmt of a nil error). -/
def optErrMsg : Option String → String
  | some e => e
  | none => ("<nil>")

/-- The key loop of tts.go `generateGeminiTTS`: `i` is the attempt
ordinal (indexing the attempt outcomes), the fuel is the remaining
number of keys to try; returns the result, the final key manager and
the number of attempts performed. -/
def ttsLoopAux (attempts : Nat → AttemptSpec) :
    Nat → Nat → APIKeyManager → Option String → Except String Unit × APIKeyManager × Nat
  | _, 0, m, lastErr =>
    (Except.error (("failed after trying all API keys: ") ++ optErrMsg lastErr), m, 0)
  | i, rem + 1, m, _lastErr =>
    match processAttempt (attempts i) with
    | StepResult.success => (Except.ok (), (GetNextKey m).2, 1)
    | StepResult.fatal msg => (Except.error msg, (GetNextKey m).2, 1)
    | StepResult.retry msg =>
      let r := ttsLoopAux attempts (i + 1) rem (GetNextKey m).2 (some msg)
      (r.1, r.2.1, r.2.2 + 1)

/-- tts.go `generateGeminiTTS`: tries every key in the pool once. -/
def generateGeminiTTS (attempts : Nat → AttemptSpec) (m : APIKeyManager) :
    Except String Unit × APIKeyManager × Nat :=
  ttsLoopAux attempts 0 m.keys.length m none

/-- The per-slide loop of tts.go `runTTSGeneration`: records, per slide
in order, whether generation succeeded; a failure is logged and skipped
(the loop continues with the remaining slides). -/
def runSlideLoop (gen : SlideNote → Except String Unit) : List SlideNote → List (Nat × Bool)
  | [] => []
  | note :: rest =>
    match gen note with
    | Except.ok _ => (note.slideNumber, true) :: runSlideLoop gen rest
    | Except.error _ => (note.slideNumber, false) :: runSlideLoop gen rest

/-- The retryable classification of the claim: a rate-limit/server-side
generation error (429/500/503/quota/rate wording) or a response missing
its audio payload. -/
def claimRetryable (a : AttemptSpec) : Prop :=
  a.clientErr = none ∧
  ((∃ e, a.genErr = some e ∧ isRetryableErr e = true) ∨
   (a.genErr = none ∧ (a.hasAudioData = false ∨ a.hasInlineData = false)))

theorem claimRetryable_retry (a : AttemptSpec) (h : claimRetryable a) :
    processAttempt a = StepResult.retry (retryMsgOf a) := by
  obtain ⟨hc, hrest⟩ := h
  rcases hrest with ⟨e, hg, hr⟩ | ⟨hg, haud⟩
  · simp [processAttempt, retryMsgOf, hc, hg, hr]
  · rcases haud with h1 | h1
    · simp [processAttempt, retryMsgOf, hc, hg, h1]
    · cases ha : a.hasAudioData <;> simp [processAttempt, retryMsgOf, hc, hg, h1, ha]

theorem getD_mem_of_lt (l : List String) (i : Nat) (d : String) (h : i < l.length) :
    l.getD i d ∈ l := by
  rw [List.getD_eq_getElem l d h]
  exact List.getElem_mem h

theorem rotationKeys_spec (n : Nat) :
    ∀ m : APIKeyManager, m.index < m.keys.length →
      rotationKeys m n =
        (List.range n).map (fun j => m.keys.getD ((m.index + j) % m.keys.length) ("")) := by
  induction n with
  | zero => intro m _; simp [rotationKeys]
  | succ n ih =>
    intro m h
    have hK : 0 < m.keys.length := Nat.lt_of_le_of_lt (Nat.zero_le _) h
    have hidx2 : (m.index + 1) % m.keys.length < m.keys.length := Nat.mod_lt _ hK
    have htail := ih { keys := m.keys, index := (m.index + 1) % m.keys.length } hidx2
    rw [rotationKeys]
    show m.keys.getD m.index ("") ::
        rotationKeys { keys := m.keys, index := (m.index + 1) % m.keys.length } n = _
    rw [htail, List.range_succ_eq_map, List.map_cons, List.map_map]
    congr 1
    · rw [Nat.add_zero, Nat.mod_eq_of_lt h]
    · apply List.map_congr_left
      intro j _
      show m.keys.getD (((m.index + 1) % m.keys.length + j) % m.keys.length) ("") =
        m.keys.getD ((m.index + (j + 1)) % m.keys.length) ("")
      congr 1
      rw [Nat.mod_add_mod]
      congr 1
      omega

/-- C9: the cursor invariant 0 ≤ index < |keys| holds for every manager
built by `NewAPIKeyManager` and is preserved by `GetNextKey`, which also
always returns an element of the pool; `n` consecutive calls starting at
a valid cursor return keys[(index + j) mod K] for j = 0..n-1 (for index
0: keys[0], keys[1 mod K], ..., keys[(n-1) mod K]). -/
theorem apiKeyManager_rotation_invariant (m : APIKeyManager)
    (hidx : m.index < m.keys.length) :
    (∀ (env : String → String) (m0 : APIKeyManager),
       NewAPIKeyManager env = Except.ok m0 → m0.index = 0 ∧ m0.index < m0.keys.length) ∧
    ((GetNextKey m).2.keys = m.keys ∧ (GetNextKey m).2.index < m.keys.length) ∧
    (GetNextKey m).1 ∈ m.keys ∧
    (∀ n, rotationKeys m n =
      (List.range n).map (fun j => m.keys.getD ((m.index + j) % m.keys.length) (""))) := by
  have hK : 0 < m.keys.length := Nat.lt_of_le_of_lt (Nat.zero_le _) hidx
  refine ⟨?_, ⟨rfl, Nat.mod_lt _ hK⟩, getD_mem_of_lt m.keys m.index ("") hidx,
    fun n => rotationKeys_spec n m hidx⟩
  intro env m0 h
  rw [NewAPIKeyManager] at h
  by_cases he : (loadKeys env).isEmpty
  · rw [if_pos he] at h; exact Except.noConfusion h
  · rw [if_neg he] at h
    cases h
    refine ⟨rfl, ?_⟩
    show 0 < (loadKeys env).length
    cases hl : loadKeys env with
    | nil => rw [hl] at he; exact absurd rfl he
    | cons a as => simp

/-- Witness for C9: three keys, four calls wrap around the pool. -/
theorem apiKeyManager_rotation_invariant_witness :
    rotationKeys { keys := [("a"), ("b"), ("c")], index := 0 } 4 =
      [("a"), ("b"), ("c"), ("a")] := by
  have h := (apiKeyManager_rotation_invariant
    { keys := [("a"), ("b"), ("c")], index := 0 } (by decide)).2.2.2 4
  rw [h]
  rfl

theorem ttsLoopAux_all_retry (attempts : Nat → AttemptSpec) :
    ∀ (rem i : Nat) (m : APIKeyManager) (lastErr : Option String),
      m.index < m.keys.length →
      (∀ j, j < rem →
        processAttempt (attempts (i + j)) = StepResult.retry (retryMsgOf (attempts (i + j)))) →
      ttsLoopAux attempts i rem m lastErr =
        (Except.error (("failed after trying all API keys: ") ++
           optErrMsg (match rem with
             | 0 => lastErr
             | _ + 1 => some (retryMsgOf (attempts (i + rem - 1))))),
         { keys := m.keys, index := (m.index + rem) % m.keys.length }, rem) := by
  intro rem
  induction rem with
  | zero =>
    intro i m lastErr hidx _
    have hmod : (m.index + 0) % m.keys.length = m.index := by
      rw [Nat.add_zero, Nat.mod_eq_of_lt hidx]
    rw [hmod]
    rfl
  | succ rem ih =>
    intro i m lastErr hidx hall
    have hK : 0 < m.keys.length := Nat.lt_of_le_of_lt (Nat.zero_le _) hidx
    have hidx2 : (m.index + 1) % m.keys.length < m.keys.length := Nat.mod_lt _ hK
    have h0 := hall 0 (Nat.succ_pos rem)
    rw [Nat.add_zero] at h0
    have hall2 : ∀ j, j < rem →
        processAttempt (attempts (i + 1 + j)) = StepResult.retry (retryMsgOf (attempts (i + 1 + j))) := by
      intro j hj
      have hx := hall (j + 1) (Nat.succ_lt_succ hj)
      have harith : i + (j + 1) = i + 1 + j := by omega
      rw [harith] at hx
      exact hx
    have htail := ih (i + 1) { keys := m.keys, index := (m.index + 1) % m.keys.length }
      (some (retryMsgOf (attempts i))) hidx2 hall2
    have hmod : ((m.index + 1) % m.keys.length + rem) % m.keys.length
        = (m.index + (rem + 1)) % m.keys.length := by
      rw [Nat.mod_add_mod]
      congr 1
      omega
    rw [hmod] at htail
    have hg : (GetNextKey m).2 = { keys := m.keys, index := (m.index + 1) % m.keys.length } := rfl
    simp only [ttsLoopAux, h0, hg, htail]
    cases rem with
    | zero => rfl
    | succ r =>
      have harith2 : i + 1 + (r + 1) - 1 = i + (r + 1 + 1) - 1 := by omega
      rw [harith2]

/-- C4: against a pool of K keys with a valid cursor, if every attempt
fails with the claim's retryable classification (429/500/503/quota/rate
wording in the generation error, or a response missing its audio
payload), `generateGeminiTTS` makes exactly K attempts, the rotation
cursor ends where it started (advanced K positions mod K), and the call
fails wrapping the last observed error. -/
theorem geminiTTS_retry_bound (attempts : Nat → AttemptSpec) (m : APIKeyManager)
    (hK : 0 < m.keys.length) (hidx : m.index < m.keys.length)
    (hall : ∀ j, j < m.keys.length → claimRetryable (attempts j)) :
    generateGeminiTTS attempts m =
      (Except.error (("failed after trying all API keys: ") ++
         retryMsgOf (attempts (m.keys.length - 1))),
       { keys := m.keys, index := m.index }, m.keys.length) := by
  have hall2 : ∀ j, j < m.keys.length →
      processAttempt (attempts (0 + j)) = StepResult.retry (retryMsgOf (attempts (0 + j))) := by
    intro j hj
    rw [Nat.zero_add]
    exact claimRetryable_retry _ (hall j hj)
  have h := ttsLoopAux_all_retry attempts m.keys.length 0 m none hidx hall2
  have hmod : (m.index + m.keys.length) % m.keys.length = m.index := by
    rw [Nat.add_mod_right]
    exact Nat.mod_eq_of_lt hidx
  rw [hmod, Nat.zero_add] at h
  rw [generateGeminiTTS, h]
  rcases hml : m.keys.length with _ | K
  · omega
  · rfl

/-- Attempt outcomes used by the C4 witness: every attempt fails with a
quota error. -/
def c4Attempts : Nat → AttemptSpec := fun _ =>
  { clientErr := none, genErr := some ("googleapi: Error 429: quota exceeded"),
    hasAudioData := true, hasInlineData := true, writeErr := none }

/-- Witness for C4 with a two-key pool. -/
theorem geminiTTS_retry_bound_witness :
    generateGeminiTTS c4Attempts { keys := [("k1"), ("k2")], index := 0 } =
      (Except.error (("failed after trying all API keys: ") ++
         ("googleapi: Error 429: quota exceeded")),
       { keys := [("k1"), ("k2")], index := 0 }, 2) := by
  have hall : ∀ j, j < ({ keys := [("k1"), ("k2")], index := 0 } : APIKeyManager).keys.length →
      claimRetryable (c4Attempts j) := by
    intro j _
    exact ⟨rfl, Or.inl ⟨("googleapi: Error 429: quota exceeded"), rfl, by rfl⟩⟩
  have h := geminiTTS_retry_bound c4Attempts { keys := [("k1"), ("k2")], index := 0 }
    (by decide) (by decide) hall
  rw [h]
  rfl

/-- C5: a non-retryable generation error on the first attempted key
makes `generateGeminiTTS` stop after exactly 1 attempt, surfacing the
error immediately; and the per-slide loop of `runTTSGeneration` records
a failed slide and proceeds with the remaining slides instead of
aborting. -/
theorem geminiTTS_nonretryable_single_attempt (attempts : Nat → AttemptSpec)
    (m : APIKeyManager) (e : String)
    (hK : 0 < m.keys.length)
    (hclient : (attempts 0).clientErr = none)
    (hgen : (attempts 0).genErr = some e)
    (hnr : isRetryableErr e = false) :
    ((generateGeminiTTS attempts m).1 = Except.error (("error generating TTS: ") ++ e) ∧
     (generateGeminiTTS attempts m).2.2 = 1) ∧
    (∀ (gen : SlideNote → Except String Unit) (note : SlideNote)
       (rest : List SlideNote) (msg : String),
       gen note = Except.error msg →
       runSlideLoop gen (note :: rest) = (note.slideNumber, false) :: runSlideLoop gen rest) := by
  have hfatal : processAttempt (attempts 0) = StepResult.fatal (("error generating TTS: ") ++ e) := by
    simp [processAttempt, hclient, hgen, hnr]
  constructor
  · obtain ⟨K, hKeq⟩ : ∃ K, m.keys.length = K + 1 := ⟨m.keys.length - 1, by omega⟩
    rw [generateGeminiTTS, hKeq]
    simp [ttsLoopAux, hfatal]
  · intro gen note rest msg hmsg
    simp only [runSlideLoop, hmsg]

/-- Attempt outcomes used by the C5 witness: a non-retryable error. -/
def c5Attempts : Nat → AttemptSpec := fun _ =>
  { clientErr := none, genErr := some ("invalid argument"),
    hasAudioData := true, hasInlineData := true, writeErr := none }

/-- Slide generator used by the C5 witness: always fails. -/
def c5Gen : SlideNote → Except String Unit := fun _ => Except.error ("boom")

/-- Witness for C5 with a two-key pool and a concrete slide list. -/
theorem geminiTTS_nonretryable_single_attempt_witness :
    ((generateGeminiTTS c5Attempts { keys := [("k1"), ("k2")], index := 0 }).1 =
       Except.error (("error generating TTS: ") ++ ("invalid argument")) ∧
     (generateGeminiTTS c5Attempts { keys := [("k1"), ("k2")], index := 0 }).2.2 = 1) ∧
    runSlideLoop c5Gen [{ slideNumber := 1, note := "a" }, { slideNumber := 2, note := "b" }] =
      (1, false) :: runSlideLoop c5Gen [{ slideNumber := 2, note := "b" }] := by
  have h := geminiTTS_nonretryable_single_attempt c5Attempts
    { keys := [("k1"), ("k2")], index := 0 } ("invalid argument")
    (by decide) rfl rfl (by rfl)
  exact ⟨⟨h.1.1, h.1.2⟩,
    h.2 c5Gen { slideNumber := 1, note := "a" } [{ slideNumber := 2, note := "b" }] ("boom") rfl⟩

/- ===== WAV container writing (tts.go writeWAVFile) ===== -/

/-- Go integer division: a zero divisor is a runtime panic, modelled as
`none`. -/
def goDiv (a b : Nat) : Option Nat := if b = 0 then none else some (a / b)

/-- The 16-bit little-endian sample decode of tts.go `writeWAVFile`:
`int16(lo) | int16(hi)<<8` on two bytes (the `% 256` encodes the Go
`byte` type's range). -/
def int16OfBytes (lo hi : Nat) : Int :=
  if lo % 256 + (hi % 256) * 256 < 32768 then ((lo % 256 + (hi % 256) * 256 : Nat) : Int)
  else ((lo % 256 + (hi % 256) * 256 : Nat) : Int) - 65536

/-- The WAV container as produced by the go-audio/wav encoder from the
buffer and format that tts.go `writeWAVFile` hands it: the header fields
passed to `wav.NewEncoder` and the written samples. -/
structure WAVFile where
  numChannels : Nat
  sampleRate : Nat
  bitsPerSample : Nat
  samples : List Int
deriving Repr, DecidableEq

/-- tts.go `writeWAVFile`: numSamples = len(pcmData)/bytesPerSample with
bytesPerSample = bitsPerSample/8 (a Go division panic when that is 0),
one second of zero silence (sampleRate*channels samples) appended after
the payload, payload samples decoded for 16-bit and 8-bit depths and
left zero otherwise (the buffer is zero-initialized). -/
def writeWAVFile (pcmData : List Nat) (channels sampleRate bitsPerSample : Nat) : Option WAVFile :=
  (goDiv pcmData.length (bitsPerSample / 8)).map (fun numSamples =>
    { numChannels := channels, sampleRate := sampleRate, bitsPerSample := bitsPerSample,
      samples := (List.range (numSamples + sampleRate * channels)).map (fun i =>
        if i < numSamples then
          if bitsPerSample = 16 then
            int16OfBytes (pcmData.getD (i * (bitsPerSample / 8)) 0)
              (pcmData.getD (i * (bitsPerSample / 8) + 1) 0)
          else if bitsPerSample = 8 then
            ((pcmData.getD (i * (bitsPerSample / 8)) 0 : Nat) : Int) - 128
          else 0
        else 0) })

theorem getD_range_map (f : Nat → Int) (n i : Nat) (h : i < n) :
    ((List.range n).map f).getD i 1 = f i := by
  have hlen : i < ((List.range n).map f).length := by
    rw [List.length_map, List.length_range]; exact h
  rw [List.getD_eq_getElem _ _ hlen, List.getElem_map, List.getElem_range]

/-- C6 counterexample: at bitsPerSample = 4 the claim's universal
quantification over parameters fails: bytesPerSample = 4/8 = 0, so the
sample-count computation divides by zero (a Go runtime panic, modelled
as `none`) and no container exists to read back. -/
theorem writeWAVFile_lowbits_counterexample :
    writeWAVFile [(0 : Nat), 0] 1 24000 4 = none := rfl

/-- C6 amended: for every PCM payload and parameters with
bitsPerSample ≥ 8, the written container carries exactly the requested
channel count, sample rate and bit depth, and its sample count is the
original count (payload bytes over bytes-per-sample) plus the
trailing-silence count (1 second × sampleRate × channels, the constant
silence configured in the source), with every appended sample
zero-valued. -/
theorem writeWAVFile_roundtrip (pcmData : List Nat) (channels sampleRate bitsPerSample : Nat)
    (hbits : 8 ≤ bitsPerSample) :
    ∃ w, writeWAVFile pcmData channels sampleRate bitsPerSample = some w ∧
      w.numChannels = channels ∧ w.sampleRate = sampleRate ∧ w.bitsPerSample = bitsPerSample ∧
      w.samples.length = pcmData.length / (bitsPerSample / 8) + 1 * (sampleRate * channels) ∧
      (∀ i, pcmData.length / (bitsPerSample / 8) ≤ i → i < w.samples.length →
        w.samples.getD i 1 = 0) := by
  have hb : bitsPerSample / 8 ≠ 0 := by omega
  have hdiv : goDiv pcmData.length (bitsPerSample / 8) =
      some (pcmData.length / (bitsPerSample / 8)) := by
    rw [goDiv, if_neg hb]
  rw [writeWAVFile, hdiv, Option.map_some']
  refine ⟨_, rfl, rfl, rfl, rfl, ?_, ?_⟩
  · rw [List.length_map, List.length_range, one_mul]
  · intro i h1 h2
    rw [List.length_map, List.length_range] at h2
    rw [getD_range_map _ _ i h2]
    rw [if_neg (by omega)]

/-- Witness for the amended C6 at a concrete 4-byte 16-bit payload. -/
theorem writeWAVFile_roundtrip_witness :
    (8 : Nat) ≤ 16 ∧
    (∃ w, writeWAVFile [(1 : Nat), 2, 3, 4] 2 3 16 = some w ∧
      w.numChannels = 2 ∧ w.sampleRate = 3 ∧ w.bitsPerSample = 16 ∧
      w.samples.length = [(1 : Nat), 2, 3, 4].length / (16 / 8) + 1 * (3 * 2) ∧
      (∀ i, [(1 : Nat), 2, 3, 4].length / (16 / 8) ≤ i → i < w.samples.length →
        w.samples.getD i 1 = 0)) :=
  ⟨by omega, writeWAVFile_roundtrip [1, 2, 3, 4] 2 3 16 (by omega)⟩

/-- C10: the sample-count division makes writeWAVFile total only when
bitsPerSample ≥ 8 (for 1..7 the divisor bitsPerSample/8 is zero and Go
panics, modelled as `none`); under the precondition the call succeeds;
at 16 bits (the only depth callers pass) and at 8 bits each payload
sample is decoded, and at any other depth ≥ 8 the call still succeeds
but every sample is written as zero. -/
theorem writeWAVFile_bits_precondition (pcmData : List Nat) (channels sampleRate bits : Nat) :
    (bits < 8 → writeWAVFile pcmData channels sampleRate bits = none) ∧
    (8 ≤ bits → (writeWAVFile pcmData channels sampleRate bits).isSome = true) ∧
    (∀ w, writeWAVFile pcmData channels sampleRate 16 = some w →
      ∀ i, i < pcmData.length / 2 →
        w.samples.getD i 1 = int16OfBytes (pcmData.getD (i * 2) 0) (pcmData.getD (i * 2 + 1) 0)) ∧
    (∀ w, writeWAVFile pcmData channels sampleRate 8 = some w →
      ∀ i, i < pcmData.length →
        w.samples.getD i 1 = ((pcmData.getD i 0 : Nat) : Int) - 128) ∧
    (8 ≤ bits → bits ≠ 8 → bits ≠ 16 →
      ∀ w, writeWAVFile pcmData channels sampleRate bits = some w →
        ∀ i, i < w.samples.length → w.samples.getD i 1 = 0) := by
  refine ⟨?_, ?_, ?_, ?_, ?_⟩
  · intro h
    have hz : bits / 8 = 0 := by omega
    rw [writeWAVFile, hz]
    rfl
  · intro h
    have hb : bits / 8 ≠ 0 := by omega
    rw [writeWAVFile, goDiv, if_neg hb, Option.map_some']
    rfl
  · intro w hw i hi
    rw [writeWAVFile] at hw
    have hdiv : goDiv pcmData.length (16 / 8) = some (pcmData.length / 2) := rfl
    rw [hdiv, Option.map_some'] at hw
    injection hw with hw
    subst hw
    rw [getD_range_map _ _ i (by omega)]
    rw [if_pos hi]
    rfl
  · intro w hw i hi
    rw [writeWAVFile] at hw
    have hdiv : goDiv pcmData.length (8 / 8) = some pcmData.length := by
      show goDiv pcmData.length 1 = some pcmData.length
      rw [goDiv, if_neg one_ne_zero, Nat.div_one]
    rw [hdiv, Option.map_some'] at hw
    injection hw with hw
    subst hw
    rw [getD_range_map _ _ i (by omega)]
    rw [if_pos hi]
    simp
  · intro h8 hne8 hne16 w hw i hi
    have hb : bits / 8 ≠ 0 := by omega
    rw [writeWAVFile, goDiv, if_neg hb, Option.map_some'] at hw
    injection hw with hw
    subst hw
    rw [List.length_map, List.length_range] at hi
    rw [getD_range_map _ _ i hi]
    by_cases hlt : i < pcmData.length / (bits / 8)
    · rw [if_pos hlt, if_neg hne16, if_neg hne8]
    · rw [if_neg hlt]

/-- Witness for C10: panic at 4 bits, success at 24 bits, decode at 16
bits, all on concrete payloads. -/
theorem writeWAVFile_bits_precondition_witness :
    writeWAVFile [(1 : Nat), 2] 1 2 4 = none ∧
    (writeWAVFile [(1 : Nat), 2] 1 2 24).isSome = true ∧
    ({ numChannels := 1, sampleRate := 1, bitsPerSample := 16,
       samples := [(7 : Int), 0] } : WAVFile).samples.getD 0 1 = int16OfBytes 7 0 := by
  refine ⟨(writeWAVFile_bits_precondition [1, 2] 1 2 4).1 (by omega),
    (writeWAVFile_bits_precondition [1, 2] 1 2 24).2.1 (by omega), ?_⟩
  have h := (writeWAVFile_bits_precondition [7, 0] 1 1 16).2.2.1
    { numChannels := 1, sampleRate := 1, bitsPerSample := 16, samples := [7, 0] }
    (by rfl) 0 (by decide)
  rw [h]
  rfl

/- ===== Slide sorting and video concatenation (video.go) ===== -/

/-- Decimal digit accumulation of Go `strconv.Atoi` on a digit run. -/
def digitsToNatAux : Nat → List Char → Nat
  | acc, [] => acc
  | acc, c :: rest => digitsToNatAux (acc * 10 + (c.toNat - ('0').toNat)) rest

/-- Go `strconv.Atoi` on a non-empty digit string. -/
def digitsToNat (ds : List Char) : Nat := digitsToNatAux 0 ds

/-- video.go `extractSlideNumber`: the regex slide\.(\d+)\.png$ matches
exactly when the filename ends in ".png" preceded by a non-empty digit
run preceded by "slide." (the character before the digit group in any
match is the dot of "slide.", which is not a digit, so the group equals
the maximal trailing digit run); the captured digits are parsed with
Atoi. -/
def extractSlideNumber (filename : String) : Option Nat :=
  if (".png").data.isSuffixOf filename.data then
    let rest := filename.data.take (filename.data.length - 4)
    let digits := (rest.reverse.takeWhile Char.isDigit).reverse
    if digits.isEmpty then none
    else if ("slide.").data.isSuffixOf (rest.take (rest.length - digits.length)) then
      some (digitsToNat digits)
    else none
  else none

/-- Go byte-wise string comparison `a < b` (character-wise here). -/
def charListLess : List Char → List Char → Bool
  | [], [] => false
  | [], _ :: _ => true
  | _ :: _, [] => false
  | c :: cs, d :: ds =>
    if c.toNat < d.toNat then true
    else if d.toNat < c.toNat then false
    else charListLess cs ds

/-- The comparator of the sort.Slice call in video.go `createVideo`:
numeric on the extracted slide numbers, falling back to the string
order when either extraction fails. -/
def slideLess (a b : String) : Bool :=
  match extractSlideNumber a, extractSlideNumber b with
  | some x, some y => decide (x < y)
  | _, _ => charListLess a.data b.data

/-- Insertion step of the sort model. -/
def insertBy {α : Type} (less : α → α → Bool) (x : α) : List α → List α
  | [] => [x]
  | y :: ys => if less x y then x :: y :: ys else y :: insertBy less x ys

/-- Model of Go `sort.Slice`/`sort.Strings`: sorts ascending with
respect to the given less function. -/
def sortBy {α : Type} (less : α → α → Bool) : List α → List α
  | [] => []
  | x :: xs => insertBy less x (sortBy less xs)

/-- The result of video.go `createCombinedVideo`: either the skipped
no-op (zero clips: no manifest and no output file are created) or the
created manifest/output with the sorted clip entries; ffmpeg failures
surface as errors. -/
inductive ConcatAction where
  | skipped : ConcatAction
  | created (listFile outputFile : String) (entries : List String) : ConcatAction
deriving Repr, DecidableEq

/-- video.go `createCombinedVideo`: the globbed per-slide clips are
passed in as `slideVideos`; the external ffmpeg concat invocation is the
function argument (returning an error message on failure). -/
def createCombinedVideo (runFFmpeg : List String → Option String)
    (slideVideos : List String) (language : String) : Except String ConcatAction :=
  if slideVideos.isEmpty then Except.ok ConcatAction.skipped
  else
    match runFFmpeg (sortBy (fun a b => charListLess a.data b.data) slideVideos) with
    | some errMsg => Except.error (("error creating combined video: ") ++ errMsg)
    | none =>
      Except.ok (ConcatAction.created (("filelist-") ++ language ++ (".txt"))
        (("video-") ++ language ++ (".mp4"))
        (sortBy (fun a b => charListLess a.data b.data) slideVideos))

/-- C7: the assembler sorts slide images numerically by the number
embedded in slide.N.png — the concrete list slide.2/10/1 comes out in
order 1, 2, 10 (not the lexicographic 1, 10, 2), slide 10 sorts after
slide 9, and in general on any two filenames whose numbers parse the
comparator agrees with numeric order. -/
theorem slide_sort_numeric :
    sortBy slideLess [("slide.2.png"), ("slide.10.png"), ("slide.1.png")] =
      [("slide.1.png"), ("slide.2.png"), ("slide.10.png")] ∧
    slideLess ("slide.9.png") ("slide.10.png") = true ∧
    slideLess ("slide.10.png") ("slide.9.png") = false ∧
    charListLess ("slide.10.png").data ("slide.9.png").data = true ∧
    (∀ (a b : String) (x y : Nat),
      extractSlideNumber a = some x → extractSlideNumber b = some y →
      slideLess a b = decide (x < y)) := by
  refine ⟨by decide, by decide, by decide, by decide, ?_⟩
  intro a b x y ha hb
  simp [slideLess, ha, hb]

/-- Witness for C7 at two concrete filenames. -/
theorem slide_sort_numeric_witness :
    slideLess ("slide.3.png") ("slide.12.png") = decide ((3 : Nat) < 12) :=
  slide_sort_numeric.2.2.2.2 ("slide.3.png") ("slide.12.png") 3 12 (by rfl) (by rfl)

/-- C8: with zero per-slide clips for a language, `createCombinedVideo`
returns the successful skipped no-op — not an error — and creates no
manifest and no combined file (only the `created` outcome carries
them). -/
theorem createCombinedVideo_noop (runFFmpeg : List String → Option String) (language : String) :
    createCombinedVideo runFFmpeg [] language = Except.ok ConcatAction.skipped := rfl
